import Mathlib

/-!
# Verification of the MARKETPLACE_AUTOPOST scheduling core

Shallow embedding of the post-scheduling subsystem of the repository
(`backend/app/services/scheduler_service.py`, `backend/app/repositories/
post_repository.py`, `backend/app/models/post.py`, `backend/app/api/v1/
posts.py`) together with theorems settling the specification's claims
about it.

Modelling conventions:
* timestamps are `Nat` ticks (UTC instants);
* a post's `price` is a Python `float`; the scheduling core only ever
  interpolates it into a string (`f"...${post.price}..."`), so the model
  carries the field as its decimal text (`str(50.0) = "50.0"`);
* Facebook access tokens are `String`s where `""` stands for Python's
  falsy values (`None` and the empty string behave identically in every
  `if token:` test of the source);
* the MongoDB `posts` collection is a `List PostInDB`; `_id` is unique in
  MongoDB, which appears as a `Nodup` hypothesis where a theorem needs it;
* APScheduler's in-memory job store is a `List Job` keyed by job id.
-/

namespace AutoPost

/-- `PostStatus` enum of `app/models/post.py` (lines 59-64). -/
inductive PostStatus where
  | draft
  | published
  | scheduled
  | archived
deriving DecidableEq, Repr

/-- `ImageModel` of `app/models/post.py` (lines 67-75): filename, url,
size in bytes, upload timestamp. -/
structure ImageModel where
  filename : String
  url : String
  size : Nat
  uploadedAt : Nat
deriving DecidableEq, Repr

/-- `PostInDB` of `app/models/post.py` (lines 127-147): the document
stored in the `posts` collection.  `id` is the hex string of the Mongo
`_id`; `price` is the decimal text of the stored float (see module
conventions); `category` is the string value of `CategoryEnum`. -/
structure PostInDB where
  id : String
  title : String
  description : String
  price : String
  category : String
  location : String
  status : PostStatus
  images : List ImageModel
  createdAt : Nat
  updatedAt : Nat
  scheduledAt : Option Nat
  facebookPostId : Option String
deriving DecidableEq, Repr

/-- `PostUpdate` of `app/models/post.py` (lines 110-118).  Every declared
field is optional; with Pydantic's `exclude_unset` dump an unset field is
absent from the `$set` document.  `none` models "unset" for the fields
the repository's callers never pass an explicit `None` for; `scheduled_at`
IS explicitly set to `None` by the cancel endpoint, so it carries a
separate set-flag.  Note the model class declares NO `facebook_post_id`
field: Pydantic's default `extra='ignore'` silently drops that keyword
argument wherever the code passes it. -/
structure PostUpdate where
  title : Option String := none
  description : Option String := none
  price : Option String := none
  category : Option String := none
  location : Option String := none
  status : Option PostStatus := none
  scheduledAtSet : Bool := false
  scheduledAt : Option Nat := none
deriving DecidableEq, Repr

/-- Whether the `exclude_unset` dump of the update is the empty dict
(`if update_dict:` test of `PostRepository.update_post`, line 120). -/
def PostUpdate.isUnsetAll (u : PostUpdate) : Bool :=
  u.title.isNone && u.description.isNone && u.price.isNone &&
  u.category.isNone && u.location.isNone && u.status.isNone &&
  !u.scheduledAtSet

/-- Applying the `$set` document built by `PostRepository.update_post`
(lines 119-126) to one document: every set field is overwritten,
`updated_at` is always rewritten to the current instant, everything else
is untouched. -/
def applyUpdate (now : Nat) (u : PostUpdate) (p : PostInDB) : PostInDB :=
  { p with
    title := u.title.getD p.title
    description := u.description.getD p.description
    price := u.price.getD p.price
    category := u.category.getD p.category
    location := u.location.getD p.location
    status := u.status.getD p.status
    scheduledAt := if u.scheduledAtSet then u.scheduledAt else p.scheduledAt
    updatedAt := now }

/-- Hex digit as accepted by Python's `bytes.fromhex`. -/
def isHexChar (c : Char) : Bool :=
  c.isDigit || (97 ≤ c.toNat && c.toNat ≤ 102) || (65 ≤ c.toNat && c.toNat ≤ 70)

/-- `bson.ObjectId.is_valid` restricted to `str` arguments, the only kind
the repository receives: a 24-character hexadecimal string. -/
def isValidObjectId (s : String) : Bool :=
  s.length == 24 && s.data.all isHexChar

/-- `PostRepository.get_post_by_id` stripped of the collection plumbing:
`None` for an invalid ObjectId, otherwise `find_one {"_id": oid}` (first
matching document). -/
def findPost (store : List PostInDB) (postId : String) : Option PostInDB :=
  if isValidObjectId postId then store.find? (fun p => p.id == postId) else none

/-- `update_one {"_id": postId} {"$set": ...}`: rewrite the first document
with the given id, leave all others in place. -/
def updateFirst (store : List PostInDB) (postId : String)
    (f : PostInDB → PostInDB) : List PostInDB :=
  match store with
  | [] => []
  | p :: ps =>
      if p.id == postId then f p :: ps else p :: updateFirst ps postId f

/-- `PostRepository.update_post` (lines 110-137) on an available database:
`None` without touching the store for an invalid ObjectId or an all-unset
update; otherwise `$set` on the first matching document and return of the
re-fetched document (`None` when nothing matched). -/
def updatePostRepoPure (store : List PostInDB) (postId : String)
    (u : PostUpdate) (now : Nat) : Option PostInDB × List PostInDB :=
  if isValidObjectId postId then
    if u.isUnsetAll then (none, store)
    else
      match store.find? (fun p => p.id == postId) with
      | none => (none, store)
      | some _ =>
          let store' := updateFirst store postId (applyUpdate now u)
          (store'.find? (fun p => p.id == postId), store')
  else (none, store)

/-- `PostService.update_post` (post_service.py lines 98-112): existence
check through `get_post_by_id` first, then the repository update. -/
def updatePostService (store : List PostInDB) (postId : String)
    (u : PostUpdate) (now : Nat) : Option PostInDB × List PostInDB :=
  match findPost store postId with
  | none => (none, store)
  | some _ => updatePostRepoPure store postId u now

/-- One APScheduler job of the in-memory job store: its id and its
`DateTrigger` run date (the recurring sweep job is carried with its next
run time in the same way; only its id matters to the claims). -/
structure Job where
  id : String
  runDate : Nat
deriving DecidableEq, Repr

/-- `scheduler.get_job(job_id)`. -/
def getJob (tbl : List Job) (jid : String) : Option Job :=
  tbl.find? (fun j => j.id == jid)

/-- `scheduler.remove_job(job_id)` (job ids are unique in APScheduler's
store; removing by id removes the job with that id). -/
def removeJob (tbl : List Job) (jid : String) : List Job :=
  tbl.filter (fun j => j.id != jid)

/-- `scheduler.add_job(..., id=jid, replace_existing=True)`: any job with
the same id is replaced by the new registration. -/
def addJob (tbl : List Job) (j : Job) : List Job :=
  removeJob tbl j.id ++ [j]

/-- `f"publish_post_{post_id}"` (scheduler_service.py line 85). -/
def jobIdFor (postId : String) : String := "publish_post_" ++ postId

/-- `SchedulerService.schedule_post_publication` (lines 76-105) on a
running scheduler: remove the existing job for the post if any, then
register the new one; returns success. -/
def schedulePostPublication (tbl : List Job) (postId : String)
    (fireAt : Nat) : Bool × List Job :=
  let jid := jobIdFor postId
  let tbl1 := if (getJob tbl jid).isSome then removeJob tbl jid else tbl
  (true, addJob tbl1 { id := jid, runDate := fireAt })

/-- `SchedulerService.cancel_scheduled_post` (lines 107-121): remove the
post's job and return `True` if it existed, else return `False`. -/
def cancelScheduledPost (tbl : List Job) (postId : String) :
    Bool × List Job :=
  let jid := jobIdFor postId
  if (getJob tbl jid).isSome then (true, removeJob tbl jid) else (false, tbl)

/-- Auxiliary scan for `pyReplace`: the fuel is an upper bound on the
number of steps (one unit per consumed character of the subject). -/
def pyReplaceAux (pat rep : List Char) : Nat → List Char → List Char
  | 0, s => s
  | _ + 1, [] => []
  | fuel + 1, c :: cs =>
      if pat.isPrefixOf (c :: cs) then
        rep ++ pyReplaceAux pat rep fuel (List.drop pat.length (c :: cs))
      else
        c :: pyReplaceAux pat rep fuel cs

/-- Python's `str.replace(pat, rep)` for a non-empty `pat`: scan left to
right, replacing every non-overlapping occurrence. -/
def pyReplace (s pat rep : String) : String :=
  ⟨pyReplaceAux pat.data rep.data s.data.length s.data⟩

/-- Python's `s.startswith(pre)`. -/
def pyStartsWith (s pre : String) : Bool :=
  pre.data.isPrefixOf s.data

/-- One entry of `SchedulerService.get_scheduled_jobs`:
`(post_id, scheduled_at, job_id)`. -/
abbrev JobEntry := String × Nat × String

/-- `SchedulerService.get_scheduled_jobs` (lines 203-218): keep the jobs
whose id starts with `'publish_post_'` and report
`job.id.replace('publish_post_', '')` as the post id, the run date and
the job id. -/
def getScheduledJobs (tbl : List Job) : List JobEntry :=
  (tbl.filter (fun j => pyStartsWith j.id "publish_post_")).map
    (fun j => (pyReplace j.id "publish_post_" "", j.runDate, j.id))

/-- Outcome of the `facebook_service.create_post` call made inside
`_post_to_facebook`: a truthy result dict carrying an `'id'`, a falsy
result (`None`, returned by `create_post`'s own exception handler), or an
exception absorbed by the `except` arms of `_post_to_facebook` /
`_publish_post` (lines 151-152, 183-185). -/
inductive FbOutcome where
  | ok (remoteId : String)
  | err
  | exn
deriving DecidableEq, Repr

/-- The `facebook_post_id` local of `_publish_post` after the publish
attempt (lines 135-152): the remote id on a truthy result, `None`
otherwise. -/
def capturedFbId : FbOutcome → Option String
  | .ok i => some i
  | .err => none
  | .exn => none

/-- The message built by `_post_to_facebook` (line 173):
`f"{post.title}\n\n{post.description}\n\nPrice: ${post.price}\nLocation: {post.location}"`. -/
def renderMessage (title description price location : String) : String :=
  title ++ "\n\n" ++ description ++ "\n\nPrice: $" ++ price ++
  "\nLocation: " ++ location

/-- The update object built at scheduler_service.py lines 158-161:
`PostUpdate(status=PostStatus.PUBLISHED, facebook_post_id=...)`.
`PostUpdate` declares no `facebook_post_id` field, so Pydantic ignores
that keyword argument (default `extra='ignore'`): the argument is taken
here, mirroring the call site, and dropped, mirroring Pydantic. -/
def publishUpdateOf (_fbId : Option String) : PostUpdate :=
  { status := some .published }

/-- The update object built by the cancel endpoint
(`api/v1/posts.py` line 202): `PostUpdate(status=DRAFT, scheduled_at=None)`
— `scheduled_at` is explicitly set to `None`, so it survives the
`exclude_unset` dump and is written as `null`. -/
def cancelUpdate : PostUpdate :=
  { status := some .draft, scheduledAtSet := true, scheduledAt := none }

/-- Observable effects of one dispatch, in order: the external publish
call (with the rendered message and the token used) and the Post Store
update for a post id. -/
inductive Event where
  | publisherCall (message : String) (token : String)
  | storeUpdate (postId : String)
deriving DecidableEq, Repr

/-- `SchedulerService._publish_post` (lines 123-167), the dispatch run
when a job fires or the sweep triggers it.  Parameters: the store, the
post id, the token captured at schedule time (`""` for Python-falsy), the
configured `settings.FACEBOOK_ACCESS_TOKEN` (`""` when unset), the
publisher outcome oracle and the current instant.  Returns the store
after the final update together with the trace of observable effects.
Every failure arm of the source is absorbed by its `try/except` blocks,
so the model is a total function: no exception propagates to the
caller. -/
def publishPost (store : List PostInDB) (postId : String)
    (fbToken : String) (defaultToken : String) (fb : FbOutcome)
    (now : Nat) : List PostInDB × List Event :=
  match findPost store postId with
  | none => (store, [])
  | some post =>
      let accessToken := if fbToken ≠ "" then fbToken else defaultToken
      if accessToken ≠ "" then
        let fbId := capturedFbId fb
        let msg := renderMessage post.title post.description post.price
          post.location
        let r := updatePostService store postId (publishUpdateOf fbId) now
        (r.2, [Event.publisherCall msg accessToken, Event.storeUpdate postId])
      else
        let r := updatePostService store postId (publishUpdateOf none) now
        (r.2, [Event.storeUpdate postId])

/-- The query document of `PostRepository.get_scheduled_posts` (lines
187-190) applied to one post: `status = "scheduled"` and
`scheduled_at ≤ now` (a document with no `scheduled_at` date never
satisfies the `$lte` comparison). -/
def isDue (p : PostInDB) (now : Nat) : Bool :=
  p.status == .scheduled &&
  match p.scheduledAt with
  | some t => decide (t ≤ now)
  | none => false

/-- `PostRepository.get_scheduled_posts` (lines 182-199): the documents
matching the due-scheduled query. -/
def getScheduledPostsQuery (store : List PostInDB) (now : Nat) :
    List PostInDB :=
  store.filter (fun p => isDue p now)

/-- The loop body of `_process_scheduled_posts` (lines 193-198) over the
queried due posts: a post with no live `publish_post_<id>` job is
dispatched through `_publish_post` (with no per-call token), a post with
a live job is skipped.  The job table is read as it was when the sweep
began; the store threads through the successive dispatches. -/
def sweepGo (jobs : List Job) (defaultToken : String)
    (fb : String → FbOutcome) (now : Nat) :
    List PostInDB → List PostInDB → List PostInDB × List Event
  | [], store => (store, [])
  | p :: ps, store =>
      if (getJob jobs (jobIdFor p.id)).isSome then
        sweepGo jobs defaultToken fb now ps store
      else
        let r := publishPost store p.id "" defaultToken (fb p.id) now
        let rest := sweepGo jobs defaultToken fb now ps r.1
        (rest.1, r.2 ++ rest.2)

/-- `SchedulerService._process_scheduled_posts` (lines 187-201), the
reconciliation sweep: query the due scheduled posts once, then dispatch
each one that has no live job. -/
def processScheduledPosts (store : List PostInDB) (jobs : List Job)
    (defaultToken : String) (fb : String → FbOutcome) (now : Nat) :
    List PostInDB × List Event :=
  sweepGo jobs defaultToken fb now (getScheduledPostsQuery store now) store

/-- `DELETE /{post_id}/schedule` (`api/v1/posts.py` lines 193-210): cancel
the scheduler job, then unconditionally update the post to Draft with
`scheduled_at` cleared. -/
def cancelEndpoint (store : List PostInDB) (jobs : List Job)
    (postId : String) (now : Nat) : List PostInDB × List Job :=
  let c := cancelScheduledPost jobs postId
  let u := updatePostService store postId cancelUpdate now
  (u.2, c.2)

/-- `PostRepository.get_post_by_id` (lines 53-68) with the database
availability made explicit: the ObjectId validity check precedes any
collection access, so an invalid id yields `None` even when the database
is down; with the database down the `RuntimeError` of `get_collection`
propagates (re-raised by the `except` arm). -/
def getPostByIdRepo (dbUp : Bool) (store : List PostInDB)
    (postId : String) : Except String (Option PostInDB) :=
  if isValidObjectId postId then
    if dbUp then .ok (store.find? (fun p => p.id == postId))
    else .error "Database not available. Please ensure MongoDB is running."
  else .ok none

/-- `PostRepository.update_post` (lines 110-137) with database
availability explicit (see `getPostByIdRepo`). -/
def updatePostRepo (dbUp : Bool) (store : List PostInDB) (postId : String)
    (u : PostUpdate) (now : Nat) :
    Except String (Option PostInDB × List PostInDB) :=
  if isValidObjectId postId then
    if dbUp then .ok (updatePostRepoPure store postId u now)
    else .error "Database not available. Please ensure MongoDB is running."
  else .ok (none, store)

/-- `delete_one {"_id": postId}`: remove the first matching document. -/
def removeFirst (store : List PostInDB) (postId : String) : List PostInDB :=
  match store with
  | [] => []
  | p :: ps => if p.id == postId then ps else p :: removeFirst ps postId

/-- `PostRepository.delete_post` (lines 139-152) with database
availability explicit: `False` without any collection access for an
invalid ObjectId, else `delete_one` and `deleted_count > 0`. -/
def deletePostRepo (dbUp : Bool) (store : List PostInDB)
    (postId : String) : Except String (Bool × List PostInDB) :=
  if isValidObjectId postId then
    if dbUp then
      .ok (store.any (fun p => p.id == postId), removeFirst store postId)
    else .error "Database not available. Please ensure MongoDB is running."
  else .ok (false, store)

/-- A concrete valid ObjectId hex string, used by closed evaluations. -/
def bikeId : String := "507f1f77bcf86cd799439011"

/-- A concrete scheduled post, used by closed evaluations: the
rendering example of the specification, stored as a scheduled document
(`str(50.0) = "50.0"` is Python's rendering of the float). -/
def bikePost : PostInDB :=
  { id := bikeId, title := "Bike", description := "Good shape",
    price := "50.0", category := "vehicles", location := "Austin",
    status := .scheduled, images := [], createdAt := 0, updatedAt := 0,
    scheduledAt := some 100, facebookPostId := none }

/-! ## Helper lemmas -/

theorem applyUpdate_id (now : Nat) (u : PostUpdate) (p : PostInDB) :
    (applyUpdate now u p).id = p.id := rfl

theorem findPost_some {store : List PostInDB} {postId : String}
    {p : PostInDB} (h : findPost store postId = some p) :
    isValidObjectId postId = true ∧
      store.find? (fun x => x.id == postId) = some p := by
  unfold findPost at h
  by_cases hv : isValidObjectId postId = true
  · exact ⟨hv, by rwa [if_pos hv] at h⟩
  · rw [if_neg hv] at h
    exact absurd h (by simp)

theorem find?_id_some {store : List PostInDB} {postId : String}
    {p : PostInDB} (h : store.find? (fun x => x.id == postId) = some p) :
    p ∈ store ∧ p.id = postId := by
  refine ⟨List.mem_of_find?_eq_some h, ?_⟩
  have := List.find?_some h
  simpa using this

theorem find?_id_isSome {store : List PostInDB} {postId : String}
    (h : postId ∈ store.map (fun x => x.id)) :
    ∃ q, store.find? (fun x => x.id == postId) = some q := by
  rw [List.mem_map] at h
  obtain ⟨x, hx, hid⟩ := h
  have : (store.find? (fun x => x.id == postId)).isSome := by
    rw [List.find?_isSome]
    exact ⟨x, hx, by simp [hid]⟩
  exact Option.isSome_iff_exists.mp this

theorem updateFirst_find?_self (f : PostInDB → PostInDB)
    (hf : ∀ x, (f x).id = x.id) (store : List PostInDB) (postId : String) :
    (updateFirst store postId f).find? (fun x => x.id == postId) =
      (store.find? (fun x => x.id == postId)).map f := by
  induction store with
  | nil => rfl
  | cons p ps ih =>
      by_cases hb : (p.id == postId) = true
      · simp [updateFirst, hb, List.find?, hf]
      · simp [updateFirst, hb, List.find?, ih]

theorem updateFirst_find?_other (f : PostInDB → PostInDB)
    (hf : ∀ x, (f x).id = x.id) (store : List PostInDB)
    {postId other : String} (hne : other ≠ postId) :
    (updateFirst store postId f).find? (fun x => x.id == other) =
      store.find? (fun x => x.id == other) := by
  induction store with
  | nil => rfl
  | cons p ps ih =>
      by_cases hb : (p.id == postId) = true
      · have hpid : p.id = postId := by simpa using hb
        have h1 : ((f p).id == other) = false := by
          simp [hf, hpid, Ne.symm hne]
        have h2 : (p.id == other) = false := by
          simp [hpid, Ne.symm hne]
        simp [updateFirst, hb, List.find?, h1, h2]
      · by_cases hc : (p.id == other) = true
        · simp [updateFirst, hb, List.find?, hc]
        · simp [updateFirst, hb, List.find?, hc, ih]

theorem updateFirst_map (f : PostInDB → PostInDB) {α : Type}
    (g : PostInDB → α) (hg : ∀ x, g (f x) = g x)
    (store : List PostInDB) (postId : String) :
    (updateFirst store postId f).map g = store.map g := by
  induction store with
  | nil => rfl
  | cons p ps ih =>
      by_cases hb : (p.id == postId) = true
      · simp [updateFirst, hb, hg]
      · simp [updateFirst, hb, ih]

theorem updatePostService_snd {store : List PostInDB} {postId : String}
    {p : PostInDB} (h : findPost store postId = some p)
    (u : PostUpdate) (hu : u.isUnsetAll = false) (now : Nat) :
    (updatePostService store postId u now).2 =
      updateFirst store postId (applyUpdate now u) := by
  obtain ⟨hv, hf⟩ := findPost_some h
  unfold updatePostService updatePostRepoPure
  rw [h, hv, hu, hf]
  rfl

theorem publishPost_none {store : List PostInDB} {postId : String}
    (h : findPost store postId = none) (tok dflt : String)
    (fb : FbOutcome) (now : Nat) :
    publishPost store postId tok dflt fb now = (store, []) := by
  unfold publishPost
  rw [h]

theorem publishPost_fst {store : List PostInDB} {postId : String}
    {p : PostInDB} (h : findPost store postId = some p)
    (tok dflt : String) (fb : FbOutcome) (now : Nat) :
    (publishPost store postId tok dflt fb now).1 =
      updateFirst store postId (applyUpdate now (publishUpdateOf none)) := by
  unfold publishPost
  rw [h]
  by_cases ht : ((if tok ≠ "" then tok else dflt) ≠ "")
  · simp only [if_pos ht]
    exact updatePostService_snd h (publishUpdateOf (capturedFbId fb)) rfl now
  · simp only [if_neg ht]
    exact updatePostService_snd h (publishUpdateOf none) rfl now

theorem publishPost_map {α : Type} (g : PostInDB → α)
    (hg : ∀ now p, g (applyUpdate now (publishUpdateOf none) p) = g p)
    (store : List PostInDB) (postId : String) (tok dflt : String)
    (fb : FbOutcome) (now : Nat) :
    (publishPost store postId tok dflt fb now).1.map g = store.map g := by
  cases h : findPost store postId with
  | none => rw [publishPost_none h]
  | some p =>
      rw [publishPost_fst h]
      exact updateFirst_map _ g (hg now) store postId

theorem publishPost_find?_other {store : List PostInDB}
    {postId other : String} (hne : other ≠ postId)
    (tok dflt : String) (fb : FbOutcome) (now : Nat) :
    (publishPost store postId tok dflt fb now).1.find?
        (fun x => x.id == other) =
      store.find? (fun x => x.id == other) := by
  cases h : findPost store postId with
  | none => rw [publishPost_none h]
  | some p =>
      rw [publishPost_fst h]
      exact updateFirst_find?_other (applyUpdate now (publishUpdateOf none))
        (fun x => rfl) store hne

theorem publishPost_find?_self {store : List PostInDB} {postId : String}
    {p : PostInDB} (h : findPost store postId = some p)
    (tok dflt : String) (fb : FbOutcome) (now : Nat) :
    (publishPost store postId tok dflt fb now).1.find?
        (fun x => x.id == postId) =
      some (applyUpdate now (publishUpdateOf none) p) := by
  obtain ⟨_, hf⟩ := findPost_some h
  rw [publishPost_fst h,
    updateFirst_find?_self (applyUpdate now (publishUpdateOf none))
      (fun x => rfl), hf]
  rfl

theorem publishPost_storeUpdate_mem {store : List PostInDB}
    {postId : String} {p : PostInDB} (h : findPost store postId = some p)
    (tok dflt : String) (fb : FbOutcome) (now : Nat) :
    Event.storeUpdate postId ∈ (publishPost store postId tok dflt fb now).2 := by
  by_cases h1 : tok = "" <;> by_cases h2 : dflt = "" <;>
    simp [publishPost, h, h1, h2]

theorem publishPost_event_shape {store : List PostInDB} {postId : String}
    {tok dflt : String} {fb : FbOutcome} {now : Nat} {e : Event}
    (he : e ∈ (publishPost store postId tok dflt fb now).2) :
    (∃ m t, e = Event.publisherCall m t) ∨ e = Event.storeUpdate postId := by
  cases h : findPost store postId with
  | none =>
      rw [publishPost_none h] at he
      simp at he
  | some p =>
      by_cases h1 : tok = "" <;> by_cases h2 : dflt = "" <;>
        simp [publishPost, h, h1, h2] at he
      all_goals first
        | exact Or.inr he
        | exact he.elim (fun hh => Or.inl ⟨_, _, hh⟩) (fun hh => Or.inr hh)

theorem findPost_of_mem {store : List PostInDB} {postId : String}
    (hv : isValidObjectId postId = true)
    (hmem : postId ∈ store.map (fun x => x.id)) :
    ∃ q, findPost store postId = some q := by
  obtain ⟨q, hq⟩ := find?_id_isSome hmem
  exact ⟨q, by unfold findPost; rw [if_pos hv]; exact hq⟩

theorem sweepGo_map_id (jobs : List Job) (dflt : String)
    (fb : String → FbOutcome) (now : Nat) (L : List PostInDB) :
    ∀ st : List PostInDB,
      (sweepGo jobs dflt fb now L st).1.map (fun x => x.id) =
        st.map (fun x => x.id) := by
  induction L with
  | nil => intro st; rfl
  | cons hd tl ih =>
      intro st
      unfold sweepGo
      by_cases hj : (getJob jobs (jobIdFor hd.id)).isSome = true
      · simp only [if_pos hj]
        exact ih st
      · simp only [if_neg hj]
        rw [ih]
        exact publishPost_map (fun x => x.id) (fun _ _ => rfl) st hd.id "" dflt
          (fb hd.id) now

theorem sweepGo_find?_frame (jobs : List Job) (dflt : String)
    (fb : String → FbOutcome) (now : Nat) (pid : String)
    (L : List PostInDB) :
    ∀ st : List PostInDB,
      (∀ q ∈ L, q.id = pid → (getJob jobs (jobIdFor q.id)).isSome = true) →
      (sweepGo jobs dflt fb now L st).1.find? (fun x => x.id == pid) =
        st.find? (fun x => x.id == pid) := by
  induction L with
  | nil => intro st _; rfl
  | cons hd tl ih =>
      intro st hL
      unfold sweepGo
      by_cases hj : (getJob jobs (jobIdFor hd.id)).isSome = true
      · simp only [if_pos hj]
        exact ih st (fun q hq => hL q (List.mem_cons_of_mem hd hq))
      · simp only [if_neg hj]
        have hne : pid ≠ hd.id := by
          intro hcontra
          exact hj (hL hd (List.mem_cons_self hd tl) hcontra.symm)
        rw [ih _ (fun q hq => hL q (List.mem_cons_of_mem hd hq))]
        exact publishPost_find?_other hne "" dflt (fb hd.id) now

theorem sweepGo_storeUpdate_mem_of (jobs : List Job) (dflt : String)
    (fb : String → FbOutcome) (now : Nat) (pid : String)
    (L : List PostInDB) :
    ∀ st : List PostInDB,
      Event.storeUpdate pid ∈ (sweepGo jobs dflt fb now L st).2 →
      ∃ q ∈ L, q.id = pid ∧ (getJob jobs (jobIdFor q.id)).isSome = false := by
  induction L with
  | nil => intro st h; simp [sweepGo] at h
  | cons hd tl ih =>
      intro st h
      unfold sweepGo at h
      by_cases hj : (getJob jobs (jobIdFor hd.id)).isSome = true
      · simp only [if_pos hj] at h
        obtain ⟨q, hq, hrest⟩ := ih st h
        exact ⟨q, List.mem_cons_of_mem hd hq, hrest⟩
      · simp only [if_neg hj] at h
        rw [List.mem_append] at h
        rcases h with h | h
        · rcases publishPost_event_shape h with ⟨m, t, he⟩ | he
          · cases he
          · cases he
            exact ⟨hd, List.mem_cons_self hd tl, rfl,
              Bool.not_eq_true _ ▸ Bool.of_not_eq_true hj⟩
        · obtain ⟨q, hq, hrest⟩ := ih _ h
          exact ⟨q, List.mem_cons_of_mem hd hq, hrest⟩

theorem sweepGo_dispatches (jobs : List Job) (dflt : String)
    (fb : String → FbOutcome) (now : Nat) (L : List PostInDB) :
    ∀ st : List PostInDB, ∀ p : PostInDB, p ∈ L →
      getJob jobs (jobIdFor p.id) = none →
      isValidObjectId p.id = true →
      p.id ∈ st.map (fun x => x.id) →
      (L.map (fun x => x.id)).Nodup →
      Event.storeUpdate p.id ∈ (sweepGo jobs dflt fb now L st).2 ∧
      ∃ q, (sweepGo jobs dflt fb now L st).1.find?
          (fun x => x.id == p.id) = some q ∧ q.status = .published := by
  induction L with
  | nil => intro st p hp; cases hp
  | cons hd tl ih =>
      intro st p hp hjob hv hmem hnd
      rcases List.mem_cons.mp hp with hph | hpt
      · subst hph
        have hj : ¬ ((getJob jobs (jobIdFor p.id)).isSome = true) := by
          rw [hjob]; simp
        unfold sweepGo
        simp only [if_neg hj]
        obtain ⟨p0, hp0⟩ := findPost_of_mem hv hmem
        constructor
        · rw [List.mem_append]
          exact Or.inl (publishPost_storeUpdate_mem hp0 "" dflt (fb p.id) now)
        · have hfr : (sweepGo jobs dflt fb now tl
              (publishPost st p.id "" dflt (fb p.id) now).1).1.find?
                (fun x => x.id == p.id) =
              (publishPost st p.id "" dflt (fb p.id) now).1.find?
                (fun x => x.id == p.id) := by
            refine sweepGo_find?_frame jobs dflt fb now p.id tl _ ?_
            intro q hq hqid
            exfalso
            have : p.id ∈ tl.map (fun x => x.id) :=
              List.mem_map.mpr ⟨q, hq, hqid⟩
            have := (List.nodup_cons.mp hnd).1
            exact this ‹p.id ∈ tl.map (fun x => x.id)›
          rw [hfr, publishPost_find?_self hp0]
          exact ⟨_, rfl, rfl⟩
      · unfold sweepGo
        by_cases hj : (getJob jobs (jobIdFor hd.id)).isSome = true
        · simp only [if_pos hj]
          exact ih st p hpt hjob hv hmem (List.nodup_cons.mp hnd).2
        · simp only [if_neg hj]
          have hmem' : p.id ∈ (publishPost st hd.id "" dflt
              (fb hd.id) now).1.map (fun x => x.id) := by
            rw [publishPost_map (fun x => x.id) (fun _ _ => rfl)]
            exact hmem
          obtain ⟨h1, h2⟩ := ih _ p hpt hjob hv hmem'
            (List.nodup_cons.mp hnd).2
          refine ⟨?_, h2⟩
          rw [List.mem_append]
          exact Or.inr h1

theorem filter_removeJob (tbl : List Job) (jid : String) :
    (removeJob tbl jid).filter (fun j => j.id == jid) = [] := by
  rw [List.filter_eq_nil_iff]
  intro j hj
  have h := (List.mem_filter.mp hj).2
  simp only [bne_iff_ne, ne_eq] at h
  simp [h]

theorem getJob_removeJob (tbl : List Job) (jid : String) :
    getJob (removeJob tbl jid) jid = none := by
  unfold getJob
  rw [List.find?_eq_none]
  intro j hj
  have h := (List.mem_filter.mp hj).2
  simp only [bne_iff_ne, ne_eq] at h
  simp [h]

theorem schedule_filter (tbl : List Job) (postId : String) (t : Nat) :
    ((schedulePostPublication tbl postId t).2).filter
        (fun j => j.id == jobIdFor postId) =
      [{ id := jobIdFor postId, runDate := t }] := by
  unfold schedulePostPublication addJob
  by_cases h : (getJob tbl (jobIdFor postId)).isSome = true
  · simp only [if_pos h, List.filter_append, filter_removeJob]
    simp
  · simp only [if_neg h, List.filter_append, filter_removeJob]
    simp

/-! ## Claim theorems -/

/-- C3: calling `schedule_post_publication` a second time while a job for
the same post identifier is live replaces the first job: the job table
holds exactly one job under the post's job key after each call, and after
the second call its fire time is the second call's time — at most one
live job per post, one publish, at the later registration's time, never
two. -/
theorem schedule_twice_replaces_job (tbl : List Job) (postId : String)
    (t1 t2 : Nat) :
    (((schedulePostPublication tbl postId t1).2).filter
        (fun j => j.id == jobIdFor postId) =
      [{ id := jobIdFor postId, runDate := t1 }]) ∧
    (((schedulePostPublication
          (schedulePostPublication tbl postId t1).2 postId t2).2).filter
        (fun j => j.id == jobIdFor postId) =
      [{ id := jobIdFor postId, runDate := t2 }]) :=
  ⟨schedule_filter tbl postId t1, schedule_filter _ postId t2⟩

/-- C7: `cancel_scheduled_post` returns true exactly when a live job for
the post identifier exists (and removes it), false when none exists; and
a second cancel on the resulting table always returns false — cancelling
twice on an already-cancelled identifier yields false both times (the
model is a total function: the source wraps the body in `try/except` and
never lets an exception escape). -/
theorem cancel_returns_existence_and_idempotent (tbl : List Job)
    (postId : String) :
    ((cancelScheduledPost tbl postId).1 =
      (getJob tbl (jobIdFor postId)).isSome) ∧
    (getJob (cancelScheduledPost tbl postId).2 (jobIdFor postId) = none) ∧
    ((cancelScheduledPost (cancelScheduledPost tbl postId).2 postId).1 =
      false) := by
  by_cases h : (getJob tbl (jobIdFor postId)).isSome = true
  · have h2 : getJob (removeJob tbl (jobIdFor postId)) (jobIdFor postId) =
        none := getJob_removeJob tbl (jobIdFor postId)
    refine ⟨?_, ?_, ?_⟩ <;>
      simp [cancelScheduledPost, h, h2]
  · have h0 : getJob tbl (jobIdFor postId) = none := by
      cases hg : getJob tbl (jobIdFor postId) with
      | none => rfl
      | some j => rw [hg] at h; simp at h
    refine ⟨?_, ?_, ?_⟩ <;>
      simp [cancelScheduledPost, h, h0]

/-- C8: when the Post Store lookup of the dispatched post identifier
returns not-found, `_publish_post` abandons: the store is unchanged (no
update), no Social Publisher call happens (empty event trace), and the
total model mirrors the source's `return` — no exception, no retry. -/
theorem dispatch_abandons_missing_post (store : List PostInDB)
    (postId tok dflt : String) (fb : FbOutcome) (now : Nat)
    (h : findPost store postId = none) :
    publishPost store postId tok dflt fb now = (store, []) :=
  publishPost_none h tok dflt fb now

/-- Witness for C8 at a concrete input: a valid ObjectId absent from the
store (the post was deleted before fire time). -/
theorem dispatch_abandons_missing_post_witness :
    findPost [] "507f1f77bcf86cd799439011" = none ∧
    publishPost [] "507f1f77bcf86cd799439011" "tok" "" FbOutcome.err 0 =
      ([], []) :=
  ⟨by decide,
   dispatch_abandons_missing_post [] "507f1f77bcf86cd799439011" "tok" ""
     FbOutcome.err 0 (by decide)⟩

/-- C10: for an input string that is not a valid ObjectId, the repository
operations are total and signal absence without touching the store:
`get_post_by_id` and `update_post` return `None`, `delete_post` returns
`False`, each before any collection access (so even with the database
unavailable no error is raised and the store is returned unchanged). -/
theorem repo_invalid_objectid_safe (dbUp : Bool) (store : List PostInDB)
    (postId : String) (u : PostUpdate) (now : Nat)
    (h : isValidObjectId postId = false) :
    getPostByIdRepo dbUp store postId = .ok none ∧
    updatePostRepo dbUp store postId u now = .ok (none, store) ∧
    deletePostRepo dbUp store postId = .ok (false, store) := by
  have h' : ¬ (isValidObjectId postId = true) := by simp [h]
  unfold getPostByIdRepo updatePostRepo deletePostRepo
  rw [if_neg h', if_neg h', if_neg h']
  exact ⟨rfl, rfl, rfl⟩

/-- Witness for C10 at a concrete input: a malformed id against an
unavailable database, showing no collection access happens. -/
theorem repo_invalid_objectid_safe_witness :
    isValidObjectId "not-an-objectid" = false ∧
    (getPostByIdRepo false [] "not-an-objectid" = .ok none ∧
     updatePostRepo false [] "not-an-objectid" {} 0 = .ok (none, []) ∧
     deletePostRepo false [] "not-an-objectid" = .ok (false, [])) :=
  ⟨by decide,
   repo_invalid_objectid_safe false [] "not-an-objectid" {} 0 (by decide)⟩

/-- C6: the message rendered at dispatch time is exactly the title, a
blank line, the description, a blank line, `Price: $` followed by the
price, a newline, `Location: ` followed by the location; concretely,
title `Bike`, description `Good shape`, price `50.0` (Python's
`str(50.0)`), location `Austin` render to exactly
`"Bike\n\nGood shape\n\nPrice: $50.0\nLocation: Austin"`. -/
theorem dispatch_renders_template_message (store : List PostInDB)
    (postId tok dflt : String) (fb : FbOutcome) (now : Nat) (p : PostInDB)
    (hp : findPost store postId = some p) (ht : tok ≠ "") :
    (publishPost store postId tok dflt fb now).2 =
      [Event.publisherCall
        (p.title ++ "\n\n" ++ p.description ++ "\n\nPrice: $" ++ p.price ++
          "\nLocation: " ++ p.location) tok,
       Event.storeUpdate postId] ∧
    renderMessage "Bike" "Good shape" "50.0" "Austin" =
      "Bike\n\nGood shape\n\nPrice: $50.0\nLocation: Austin" := by
  constructor
  · by_cases h2 : dflt = "" <;> simp [publishPost, hp, ht, h2, renderMessage]
  · rfl

/-- Witness for C6 at the specification's concrete rendering example. -/
theorem dispatch_renders_template_message_witness :
    findPost [bikePost] bikeId = some bikePost ∧ ("tok" : String) ≠ "" ∧
    ((publishPost [bikePost] bikeId "tok" "" FbOutcome.err 0).2 =
      [Event.publisherCall
        (bikePost.title ++ "\n\n" ++ bikePost.description ++
          "\n\nPrice: $" ++ bikePost.price ++ "\nLocation: " ++
          bikePost.location) "tok",
       Event.storeUpdate bikeId] ∧
     renderMessage "Bike" "Good shape" "50.0" "Austin" =
       "Bike\n\nGood shape\n\nPrice: $50.0\nLocation: Austin") :=
  ⟨by decide, by decide,
   dispatch_renders_template_message [bikePost] bikeId "tok" ""
     FbOutcome.err 0 bikePost (by decide) (by decide)⟩

/-- C1 (code evaluated at the failing input): a dispatch whose external
publish attempt succeeds and returns the remote identifier `fb_123`
(`capturedFbId` really captures it) still ends with the post's
`facebook_post_id` unset in the store, because `PostUpdate` declares no
`facebook_post_id` field and Pydantic silently drops the keyword argument
passed at scheduler_service.py line 160; only `status` is written. -/
theorem dispatch_publish_success_drops_remote_id :
    capturedFbId (FbOutcome.ok "fb_123") = some "fb_123" ∧
    ((publishPost [bikePost] bikeId "tok" "" (FbOutcome.ok "fb_123")
        200).1.find? (fun p => p.id == bikeId)).map
      (fun p => (p.status, p.facebookPostId)) =
      some (PostStatus.published, none) :=
  ⟨rfl, by decide⟩

/-- C2: when the Social Publisher call fails — an error result or an
exception absorbed by the `except` arms — the dispatch still updates the
post to status Published with `facebook_post_id` left unset, and makes
exactly one publish attempt (one publisher-call event, then the store
update), with no retry; the model being a total function mirrors the
source's outer `try/except`, which lets no exception escape. -/
theorem dispatch_publisher_failure_contained (store : List PostInDB)
    (postId tok dflt : String) (fb : FbOutcome) (now : Nat) (p : PostInDB)
    (hp : findPost store postId = some p)
    (hfb : fb = FbOutcome.err ∨ fb = FbOutcome.exn)
    (htok : ¬(tok = "" ∧ dflt = ""))
    (hfbid : p.facebookPostId = none) :
    (∃ q, (publishPost store postId tok dflt fb now).1.find?
        (fun x => x.id == postId) = some q ∧
      q.status = PostStatus.published ∧ q.facebookPostId = none) ∧
    (∃ tk, (publishPost store postId tok dflt fb now).2 =
      [Event.publisherCall
        (renderMessage p.title p.description p.price p.location) tk,
       Event.storeUpdate postId]) := by
  constructor
  · exact ⟨_, publishPost_find?_self hp tok dflt fb now, rfl, hfbid⟩
  · by_cases h1 : tok = ""
    · have h2 : ¬ dflt = "" := fun h2 => htok ⟨h1, h2⟩
      exact ⟨dflt, by simp [publishPost, hp, h1, h2, renderMessage]⟩
    · exact ⟨tok, by
        by_cases h2 : dflt = "" <;>
          simp [publishPost, hp, h1, h2, renderMessage]⟩

/-- Witness for C2 at a concrete input: the publisher returns an error
for the sample scheduled post. -/
theorem dispatch_publisher_failure_contained_witness :
    findPost [bikePost] bikeId = some bikePost ∧
    (FbOutcome.err = FbOutcome.err ∨ FbOutcome.err = FbOutcome.exn) ∧
    ¬(("tok" : String) = "" ∧ ("" : String) = "") ∧
    bikePost.facebookPostId = none ∧
    ((∃ q, (publishPost [bikePost] bikeId "tok" "" FbOutcome.err 5).1.find?
        (fun x => x.id == bikeId) = some q ∧
      q.status = PostStatus.published ∧ q.facebookPostId = none) ∧
    (∃ tk, (publishPost [bikePost] bikeId "tok" "" FbOutcome.err 5).2 =
      [Event.publisherCall
        (renderMessage bikePost.title bikePost.description bikePost.price
          bikePost.location) tk,
       Event.storeUpdate bikeId])) :=
  ⟨by decide, Or.inl rfl, by simp, rfl,
   dispatch_publisher_failure_contained [bikePost] bikeId "tok" ""
     FbOutcome.err 5 bikePost (by decide) (Or.inl rfl) (by simp) rfl⟩

/-- C9 counterexample: `get_scheduled_jobs` computes the reported post id
with Python's `str.replace`, which removes every occurrence of
`'publish_post_'`, not only the leading one.  Scheduling the post
identifier `"publish_post_a"` yields the job id
`"publish_post_" ++ "publish_post_a"`; the listing then reports post id
`"a"`, whereas removing only the prefix would give `"publish_post_a"`. -/
theorem getScheduledJobs_prefix_strip_counterexample :
    jobIdFor "publish_post_a" = "publish_post_" ++ "publish_post_a" ∧
    getScheduledJobs (schedulePostPublication [] "publish_post_a" 5).2 =
      [("a", 5, "publish_post_publish_post_a")] ∧
    ("a" : String) ≠ "publish_post_a" :=
  ⟨rfl, by decide, by decide⟩

/-- C9 (amended): every entry returned by `get_scheduled_jobs` comes from
a job of the table whose identifier starts with `'publish_post_'`, and
its post id equals that identifier with every occurrence of
`'publish_post_'` removed (which coincides with removing the prefix
whenever the underlying post identifier does not itself contain
`'publish_post_'`); the scheduler's own recurring sweep job
`'process_scheduled_posts'` never appears in the returned list. -/
theorem getScheduledJobs_entries_spec (tbl : List Job) (e : JobEntry)
    (he : e ∈ getScheduledJobs tbl) :
    ∃ j ∈ tbl, e.2.2 = j.id ∧ pyStartsWith j.id "publish_post_" = true ∧
      e.1 = pyReplace j.id "publish_post_" "" ∧ e.2.1 = j.runDate ∧
      j.id ≠ "process_scheduled_posts" := by
  unfold getScheduledJobs at he
  rw [List.mem_map] at he
  obtain ⟨j, hj, hef⟩ := he
  rw [List.mem_filter] at hj
  refine ⟨j, hj.1, ?_, hj.2, ?_, ?_, ?_⟩
  · rw [← hef]
  · rw [← hef]
  · rw [← hef]
  · intro hid
    have hfalse : pyStartsWith "process_scheduled_posts" "publish_post_" =
        false := by decide
    rw [hid] at hj
    rw [hfalse] at hj
    exact Bool.false_ne_true hj.2

/-- Witness for the amended C9 at a concrete job table. -/
theorem getScheduledJobs_entries_spec_witness :
    (("abc", 7, "publish_post_abc") : JobEntry) ∈
      getScheduledJobs [{ id := "publish_post_abc", runDate := 7 }] ∧
    ∃ j ∈ ([{ id := "publish_post_abc", runDate := 7 }] : List Job),
      (("abc", 7, "publish_post_abc") : JobEntry).2.2 = j.id ∧
      pyStartsWith j.id "publish_post_" = true ∧
      (("abc", 7, "publish_post_abc") : JobEntry).1 =
        pyReplace j.id "publish_post_" "" ∧
      (("abc", 7, "publish_post_abc") : JobEntry).2.1 = j.runDate ∧
      j.id ≠ "process_scheduled_posts" :=
  ⟨by decide,
   getScheduledJobs_entries_spec [{ id := "publish_post_abc", runDate := 7 }]
     ("abc", 7, "publish_post_abc") (by decide)⟩

/-- C5: for a post in status Scheduled with a live job, a cancel request
before fire time removes the job from the table — it is absent from the
job lookup and from the scheduled-jobs listing, so its dispatch never
fires — resets the post's status to Draft and clears `scheduled_at`;
and the dispatch path (the only other transition out of Scheduled)
modifies no post's `scheduled_at`. -/
theorem cancel_endpoint_resets_post_and_job (store : List PostInDB)
    (jobs : List Job) (postId : String) (now : Nat) (p : PostInDB) (j : Job)
    (hp : findPost store postId = some p)
    (hst : p.status = PostStatus.scheduled)
    (hj : getJob jobs (jobIdFor postId) = some j)
    (hfire : now < j.runDate) :
    (getJob (cancelEndpoint store jobs postId now).2 (jobIdFor postId) =
      none) ∧
    (∀ e ∈ getScheduledJobs (cancelEndpoint store jobs postId now).2,
      e.2.2 ≠ jobIdFor postId) ∧
    (∃ q, (cancelEndpoint store jobs postId now).1.find?
        (fun x => x.id == postId) = some q ∧
      q.status = PostStatus.draft ∧ q.scheduledAt = none) ∧
    (∀ (st : List PostInDB) (pid tok dflt : String) (fb : FbOutcome)
        (now' : Nat),
      (publishPost st pid tok dflt fb now').1.map
          (fun x => (x.id, x.scheduledAt)) =
        st.map (fun x => (x.id, x.scheduledAt))) := by
  have hsome : (getJob jobs (jobIdFor postId)).isSome = true := by
    rw [hj]; rfl
  have hjobs2 : (cancelEndpoint store jobs postId now).2 =
      removeJob jobs (jobIdFor postId) := by
    simp [cancelEndpoint, cancelScheduledPost, hsome]
  refine ⟨?_, ?_, ?_, ?_⟩
  · rw [hjobs2]
    exact getJob_removeJob jobs (jobIdFor postId)
  · intro e he
    rw [hjobs2] at he
    unfold getScheduledJobs at he
    rw [List.mem_map] at he
    obtain ⟨j', hj', hef⟩ := he
    have hmem := (List.mem_filter.mp hj').1
    have hne := (List.mem_filter.mp hmem).2
    simp only [bne_iff_ne, ne_eq] at hne
    rw [← hef]
    exact hne
  · have hstore : (cancelEndpoint store jobs postId now).1 =
        updateFirst store postId (applyUpdate now cancelUpdate) := by
      show (updatePostService store postId cancelUpdate now).2 = _
      exact updatePostService_snd hp cancelUpdate rfl now
    obtain ⟨_, hf⟩ := findPost_some hp
    rw [hstore,
      updateFirst_find?_self (applyUpdate now cancelUpdate)
        (fun x => rfl) store postId, hf]
    exact ⟨_, rfl, rfl, rfl⟩
  · intro st pid tok dflt fb now'
    exact publishPost_map (fun x => (x.id, x.scheduledAt))
      (fun _ _ => rfl) st pid tok dflt fb now'

/-- Witness for C5 at a concrete input: the sample scheduled post with a
live job firing at 100, cancelled at time 10. -/
theorem cancel_endpoint_resets_post_and_job_witness :
    findPost [bikePost] bikeId = some bikePost ∧
    bikePost.status = PostStatus.scheduled ∧
    getJob [{ id := jobIdFor bikeId, runDate := 100 }] (jobIdFor bikeId) =
      some { id := jobIdFor bikeId, runDate := 100 } ∧
    (10 : Nat) < 100 ∧
    ((getJob (cancelEndpoint [bikePost]
          [{ id := jobIdFor bikeId, runDate := 100 }] bikeId 10).2
        (jobIdFor bikeId) = none) ∧
     (∀ e ∈ getScheduledJobs (cancelEndpoint [bikePost]
          [{ id := jobIdFor bikeId, runDate := 100 }] bikeId 10).2,
       e.2.2 ≠ jobIdFor bikeId) ∧
     (∃ q, (cancelEndpoint [bikePost]
          [{ id := jobIdFor bikeId, runDate := 100 }] bikeId 10).1.find?
         (fun x => x.id == bikeId) = some q ∧
       q.status = PostStatus.draft ∧ q.scheduledAt = none) ∧
     (∀ (st : List PostInDB) (pid tok dflt : String) (fb : FbOutcome)
         (now' : Nat),
       (publishPost st pid tok dflt fb now').1.map
           (fun x => (x.id, x.scheduledAt)) =
         st.map (fun x => (x.id, x.scheduledAt)))) :=
  ⟨by decide, rfl, by decide, by decide,
   cancel_endpoint_resets_post_and_job [bikePost]
     [{ id := jobIdFor bikeId, runDate := 100 }] bikeId 10 bikePost
     { id := jobIdFor bikeId, runDate := 100 } (by decide) rfl (by decide)
     (by decide)⟩

/-- C4: the reconciliation sweep queries the store for posts with status
Scheduled and `scheduled_at ≤ now` (`isDue`), and (a) every such post
with no live job in the job table is dispatched — its store update
appears in the trace and it ends Published; (b) every post with a live
job is skipped — no store update for it appears in the trace and its
document is untouched: the job-table lookup is the sole de-duplication
guard. -/
theorem sweep_publishes_due_unscheduled_only (store : List PostInDB)
    (jobs : List Job) (dflt : String) (fb : String → FbOutcome) (now : Nat)
    (hnd : (store.map (fun p => p.id)).Nodup) :
    (∀ p ∈ store, isDue p now = true → isValidObjectId p.id = true →
      getJob jobs (jobIdFor p.id) = none →
      Event.storeUpdate p.id ∈
        (processScheduledPosts store jobs dflt fb now).2 ∧
      ∃ q, (processScheduledPosts store jobs dflt fb now).1.find?
          (fun x => x.id == p.id) = some q ∧
        q.status = PostStatus.published) ∧
    (∀ p ∈ store, (getJob jobs (jobIdFor p.id)).isSome = true →
      Event.storeUpdate p.id ∉
        (processScheduledPosts store jobs dflt fb now).2 ∧
      (processScheduledPosts store jobs dflt fb now).1.find?
          (fun x => x.id == p.id) =
        store.find? (fun x => x.id == p.id)) := by
  have hLnd : ((getScheduledPostsQuery store now).map
      (fun p => p.id)).Nodup := by
    refine List.Nodup.sublist ?_ hnd
    exact List.Sublist.map (fun p => p.id) (List.filter_sublist store)
  constructor
  · intro p hp hdue hv hjob
    have hpL : p ∈ getScheduledPostsQuery store now :=
      List.mem_filter.mpr ⟨hp, hdue⟩
    have hmem : p.id ∈ store.map (fun x => x.id) :=
      List.mem_map.mpr ⟨p, hp, rfl⟩
    exact sweepGo_dispatches jobs dflt fb now
      (getScheduledPostsQuery store now) store p hpL hjob hv hmem hLnd
  · intro p hp hjob
    constructor
    · intro hmem
      obtain ⟨q, hqL, hqid, hqnone⟩ := sweepGo_storeUpdate_mem_of jobs dflt
        fb now p.id (getScheduledPostsQuery store now) store hmem
      have hqstore : q ∈ store := List.mem_of_mem_filter hqL
      have hqp : q = p := List.inj_on_of_nodup_map hnd hqstore hp hqid
      rw [hqp] at hqnone
      rw [hjob] at hqnone
      simp at hqnone
    · refine sweepGo_find?_frame jobs dflt fb now p.id
        (getScheduledPostsQuery store now) store ?_
      intro q hq hqid
      have hqstore : q ∈ store := List.mem_of_mem_filter hq
      have hqp : q = p := List.inj_on_of_nodup_map hnd hqstore hp hqid
      rw [hqp]
      exact hjob

/-- Witness for C4 at a concrete input: the sample scheduled post, due at
time 200, with an empty job table (simulating a lost timer after a
restart). -/
theorem sweep_publishes_due_unscheduled_only_witness :
    (([bikePost].map (fun p => p.id)).Nodup) ∧
    ((∀ p ∈ [bikePost], isDue p 200 = true →
      isValidObjectId p.id = true →
      getJob [] (jobIdFor p.id) = none →
      Event.storeUpdate p.id ∈
        (processScheduledPosts [bikePost] [] "cfg"
          (fun _ => FbOutcome.ok "fb_1") 200).2 ∧
      ∃ q, (processScheduledPosts [bikePost] [] "cfg"
            (fun _ => FbOutcome.ok "fb_1") 200).1.find?
          (fun x => x.id == p.id) = some q ∧
        q.status = PostStatus.published) ∧
    (∀ p ∈ [bikePost],
      (getJob ([] : List Job) (jobIdFor p.id)).isSome = true →
      Event.storeUpdate p.id ∉
        (processScheduledPosts [bikePost] [] "cfg"
          (fun _ => FbOutcome.ok "fb_1") 200).2 ∧
      (processScheduledPosts [bikePost] [] "cfg"
            (fun _ => FbOutcome.ok "fb_1") 200).1.find?
          (fun x => x.id == p.id) =
        [bikePost].find? (fun x => x.id == p.id))) :=
  ⟨by decide,
   sweep_publishes_due_unscheduled_only [bikePost] [] "cfg"
     (fun _ => FbOutcome.ok "fb_1") 200 (by decide)⟩

end AutoPost
